import Mathlib

/-
Verification of the News-Sentiment-Analyzer backend.

Shallow embedding conventions:
- Python floats are modelled as rational numbers (ℚ); all the arithmetic the
  claims touch (confidence weighting, thresholds, tolerances) is exact at the
  values involved.
- Python dicts with string keys are modelled as association lists
  (List (String × _)); the code only ever builds them with pairwise-distinct
  keys.
- Sentiment labels and market signals are the literal strings the code uses
  ("Positive", "BULLISH", ...), so that the catch-all else branches of the
  source are modelled faithfully.
-/

namespace NewsSentiment

/-- Leading and trailing whitespace removed from a character list; the model
of Python str.strip. -/
def stripChars (l : List Char) : List Char :=
  ((l.dropWhile Char.isWhitespace).reverse.dropWhile Char.isWhitespace).reverse

/-- Model of the pervasive Python emptiness test `not s or not s.strip()`:
the string is empty or whitespace-only. -/
def isBlank (s : String) : Bool := (stripChars s.data).isEmpty

/-- Model of Python str.startswith. -/
def pyStartsWith (s pre : String) : Bool := List.isPrefixOf pre.data s.data

/-- Model of backend/models/article.py, class Article. -/
structure Article where
  title : String
  url : String
  published : String
  content : String
  source_type : String
deriving Repr, DecidableEq

/-- Model of Article.validate: title and content non-blank, url has an
http/https scheme, source_type one of the two literals. -/
def Article.validate (a : Article) : Bool :=
  !isBlank a.title &&
  (pyStartsWith a.url "http://" || pyStartsWith a.url "https://") &&
  !isBlank a.content &&
  (a.source_type == "Full Article" || a.source_type == "Headline Only")

/-- Model of backend/models/article.py, class HeadlineSentiment. -/
structure HeadlineSentiment where
  score : ℚ
  label : String
deriving Repr, DecidableEq

/-- Model of HeadlineSentiment.validate. -/
def HeadlineSentiment.validate (h : HeadlineSentiment) : Bool :=
  decide (-1 ≤ h.score) && decide (h.score ≤ 1) &&
  (h.label == "Positive" || h.label == "Negative" || h.label == "Neutral")

/-- Model of backend/models/article.py, class ContentSentiment.
probabilities is the raw class-probability dict. -/
structure ContentSentiment where
  confidence : ℚ
  label : String
  probabilities : List (String × ℚ)
deriving Repr, DecidableEq

/-- Sum of the values of a string-keyed dict, as Python sum(d.values()). -/
def dictSum (d : List (String × ℚ)) : ℚ :=
  (d.map Prod.snd).sum

/-- Model of ContentSentiment.validate: confidence in [0,1], label one of the
three literals, probabilities sum to 1 within the 0.01 tolerance. -/
def ContentSentiment.validate (c : ContentSentiment) : Bool :=
  decide (0 ≤ c.confidence) && decide (c.confidence ≤ 1) &&
  (c.label == "Positive" || c.label == "Negative" || c.label == "Neutral") &&
  decide (|dictSum c.probabilities - 1| ≤ 1/100)

/-- Model of backend/models/article.py, class AnalyzedArticle. -/
structure AnalyzedArticle where
  article : Article
  headline_sentiment : HeadlineSentiment
  content_sentiment : ContentSentiment
deriving Repr, DecidableEq

/-- Model of AnalyzedArticle.validate: all three parts validate. -/
def AnalyzedArticle.validate (a : AnalyzedArticle) : Bool :=
  a.article.validate && a.headline_sentiment.validate && a.content_sentiment.validate

/-- Model of the direction mapping inside
AnalysisReport._calculate_net_sentiment_score: Positive ↦ 1, Negative ↦ -1,
anything else (the else branch of the source) ↦ 0. -/
def direction (label : String) : ℚ :=
  if label == "Positive" then 1
  else if label == "Negative" then -1
  else 0

/-- Count of articles whose content label equals l, as in
AnalysisReport._calculate_sentiment_distribution. -/
def countLabel (articles : List AnalyzedArticle) (l : String) : Int :=
  ((articles.filter (fun a => a.content_sentiment.label == l)).length : Int)

/-- Model of AnalysisReport._calculate_sentiment_distribution: the dict starts
with the three labels at 0 and an article increments a key only when its label
is one of the three. -/
def calcDistribution (articles : List AnalyzedArticle) : List (String × Int) :=
  [("Positive", countLabel articles "Positive"),
   ("Negative", countLabel articles "Negative"),
   ("Neutral", countLabel articles "Neutral")]

/-- Confidence-weighted signed score accumulated over the articles
(the weighted_score variable of the source). -/
def weightedScore (articles : List AnalyzedArticle) : ℚ :=
  (articles.map (fun a => direction a.content_sentiment.label * a.content_sentiment.confidence)).sum

/-- Total confidence weight accumulated over the articles
(the total_weight variable of the source). -/
def totalWeight (articles : List AnalyzedArticle) : ℚ :=
  (articles.map (fun a => a.content_sentiment.confidence)).sum

/-- Model of AnalysisReport._calculate_net_sentiment_score: 0.0 for an empty
article list, otherwise weighted score over total weight, 0.0 when the total
weight is not positive. -/
def calcNetScore (articles : List AnalyzedArticle) : ℚ :=
  if articles.isEmpty then 0
  else if totalWeight articles > 0 then weightedScore articles / totalWeight articles
  else 0

/-- Model of AnalysisReport._determine_market_signal with the fixed 0.15
thresholds of the source. -/
def determineSignal (net : ℚ) : String :=
  if net > 15/100 then "BULLISH"
  else if net < -(15/100) then "BEARISH"
  else "NEUTRAL"

/-- Model of the datetime timestamps the report carries; fields as in the
Python datetime value (naive UTC). -/
structure Datetime where
  year : Nat
  month : Nat
  day : Nat
  hour : Nat
  minute : Nat
  second : Nat
  microsecond : Nat
deriving Repr, DecidableEq

/-- Range constraints the Python datetime type guarantees for its fields. -/
def Datetime.valid (d : Datetime) : Bool :=
  decide (1 ≤ d.year) && decide (d.year ≤ 9999) &&
  decide (1 ≤ d.month) && decide (d.month ≤ 12) &&
  decide (1 ≤ d.day) && decide (d.day ≤ 31) &&
  decide (d.hour ≤ 23) && decide (d.minute ≤ 59) && decide (d.second ≤ 59) &&
  decide (d.microsecond ≤ 999999)

/-- Model of backend/models/analysis_report.py, class AnalysisReport. -/
structure AnalysisReport where
  timestamp : Datetime
  query : String
  category : String
  total_articles : Int
  sentiment_distribution : List (String × Int)
  net_sentiment_score : ℚ
  market_signal : String
  articles : List AnalyzedArticle
  processing_time : ℚ
deriving Repr, DecidableEq

/-- Keys of a string-keyed dict, as Python d.keys(). -/
def keysOf (d : List (String × Int)) : List String := d.map Prod.fst

/-- Sum of the values of an int-valued dict, as Python sum(d.values()). -/
def dictSumInt (d : List (String × Int)) : Int :=
  (d.map Prod.snd).sum

/-- Decidable set equality of key lists, modelling the Python comparison
set(d.keys()) == expected. -/
def sameKeySet (ks expected : List String) : Bool :=
  ks.all (fun k => expected.contains k) && expected.all (fun k => ks.contains k)

/-- Model of AnalysisReport.validate.  It mirrors exactly the checks the
source performs: total_articles nonnegative, net score in [-1,1], signal one
of the three literals, processing time nonnegative, distribution keys exactly
the three labels, article count matching total_articles, and every article
validating.  (The isinstance checks of the source are type-level and hold by
construction in the model.) -/
def AnalysisReport.validate (r : AnalysisReport) : Bool :=
  decide (0 ≤ r.total_articles) &&
  decide (-1 ≤ r.net_sentiment_score) && decide (r.net_sentiment_score ≤ 1) &&
  (r.market_signal == "BULLISH" || r.market_signal == "BEARISH" || r.market_signal == "NEUTRAL") &&
  decide (0 ≤ r.processing_time) &&
  sameKeySet (keysOf r.sentiment_distribution) ["Positive", "Negative", "Neutral"] &&
  ((r.articles.length : Int) == r.total_articles) &&
  r.articles.all AnalyzedArticle.validate

/-- Model of AnalysisReport.create_from_articles together with the
__post_init__ it triggers: the empty distribution dict, the None net score and
the empty signal string passed by the factory make __post_init__ compute all
three derived fields, in that order (the signal is derived from the net score
just computed). -/
def createFromArticles (ts : Datetime) (query category : String)
    (articles : List AnalyzedArticle) (processing_time : ℚ) : AnalysisReport :=
  let net := calcNetScore articles
  { timestamp := ts
    query := query
    category := category
    total_articles := (articles.length : Int)
    sentiment_distribution := calcDistribution articles
    net_sentiment_score := net
    market_signal := determineSignal net
    articles := articles
    processing_time := processing_time }

/-- Neutral fallback score of SentimentEngine.analyze_content, produced both
for empty/blank input and when the classifier raises: confidence 0.33, label
Neutral, probability split Negative 0.33 / Neutral 0.34 / Positive 0.33. -/
def fallbackScore : ContentSentiment :=
  { confidence := 33/100
    label := "Neutral"
    probabilities := [("Negative", 33/100), ("Neutral", 34/100), ("Positive", 33/100)] }

/-- Label order of the FinBERT output vector, from SentimentEngine.__init__
(self.finbert_labels). -/
def finbert_labels : List String := ["Negative", "Neutral", "Positive"]

/-- Model of np.argmax over the three-element probability vector in FinBERT
label order: index of the first maximal entry. -/
def argmax3 (pn pu pp : ℚ) : Nat :=
  if pn ≥ pu ∧ pn ≥ pp then 0
  else if pu ≥ pp then 1
  else 2

/-- Model of SentimentEngine.analyze_content.  The FinBERT classifier is an
external capability; its outcome is passed in as clf: some (pn, pu, pp) is a
successful softmax run producing the probability vector in finbert_labels
order, none models the classifier raising.  Blank input and a raising
classifier both yield the neutral fallback; a successful run takes the argmax
index, its label, its probability as confidence, and zips the labels with the
probabilities into the dict. -/
def analyze_content (text : String) (clf : Option (ℚ × ℚ × ℚ)) : ContentSentiment :=
  if isBlank text then fallbackScore
  else
    match clf with
    | none => fallbackScore
    | some (pn, pu, pp) =>
      let idx := argmax3 pn pu pp
      { confidence := [pn, pu, pp].getD idx 0
        label := finbert_labels.getD idx ""
        probabilities := [("Negative", pn), ("Neutral", pu), ("Positive", pp)] }

/-- Lookup of a probability by label in the probability dict, as the Python
indexing probabilities[label] (0 when absent; the code only looks up present
keys). -/
def probFor (ps : List (String × ℚ)) (l : String) : ℚ :=
  match ps.find? (fun p => p.1 == l) with
  | some p => p.2
  | none => 0

/-- Label l is an arg-max of the probability dict: l is a key and its
probability is maximal among all entries. -/
def IsMaxLabel (ps : List (String × ℚ)) (l : String) : Prop :=
  (∃ p ∈ ps, p.1 = l) ∧ ∀ p ∈ ps, p.2 ≤ probFor ps l

/-- Result record of SentimentEngine.calculate_market_signal. -/
structure MarketSignalResult where
  market_signal : String
  net_sentiment_score : ℚ
  sentiment_distribution : List (String × Int)
deriving Repr, DecidableEq

/-- Model of SentimentEngine.calculate_market_signal: an empty article list
yields the all-zero Neutral record; otherwise the same confidence-weighted
score and 0.15-threshold signal as the report aggregator.  The unguarded dict
increment sentiment_counts[label] += 1 of the source raises KeyError on a
label outside the three fixed keys, modelled by none.  The two remaining dict
entries of the source result (confidence_weighted_score, total_articles) are
not modelled; no claim mentions them. -/
def calculate_market_signal (articles : List AnalyzedArticle) : Option MarketSignalResult :=
  if articles.isEmpty then
    some
      { market_signal := "NEUTRAL"
        net_sentiment_score := 0
        sentiment_distribution := [("Positive", 0), ("Negative", 0), ("Neutral", 0)] }
  else if articles.all (fun a => finbert_labels.contains a.content_sentiment.label) then
    let net := if totalWeight articles > 0 then weightedScore articles / totalWeight articles else 0
    some
      { market_signal := determineSignal net
        net_sentiment_score := net
        sentiment_distribution := calcDistribution articles }
  else none

/-- Model of a feedparser RSS entry as consumed by NewsAggregator: the fields
fetch_articles and _process_rss_entry read. -/
structure RSSEntry where
  title : String
  link : String
  published : String
deriving Repr, DecidableEq

/-- Model of the inner loop of NewsAggregator.fetch_articles over the capped
entries of one query: an entry whose link is already in the seen set is
skipped, otherwise its link is recorded and the entry appended.  Returns the
extended seen set and the entries this query contributed, in order. -/
def gatherQuery : List RSSEntry → List String → List String × List RSSEntry
  | [], seen => (seen, [])
  | e :: es, seen =>
    if e.link ∈ seen then gatherQuery es seen
    else
      let r := gatherQuery es (e.link :: seen)
      (r.1, e :: r.2)

/-- Model of the single-threaded gathering pre-pass of
NewsAggregator.fetch_articles over all queries: per query the feed source is
consulted (none models the try/except continue on a feed error), its entries
are capped at articles_per_query, and deduplication threads one seen-link set
across all queries.  Returns the final seen set and the concatenated unique
entries. -/
def gatherQueries (feeds : String → Option (List RSSEntry)) (cap : Nat) :
    List String → List String → List String × List RSSEntry
  | [], seen => (seen, [])
  | q :: qs, seen =>
    match feeds q with
    | none => gatherQueries feeds cap qs seen
    | some es =>
      let r1 := gatherQuery (es.take cap) seen
      let r2 := gatherQueries feeds cap qs r1.1
      (r2.1, r1.2 ++ r2.2)

/-- Unique RSS entries produced by the pre-pass of fetch_articles, starting
from the empty seen set. -/
def gatherEntries (queries : List String) (feeds : String → Option (List RSSEntry))
    (cap : Nat) : List RSSEntry :=
  (gatherQueries feeds cap queries []).2

/-- Model of NewsAggregator.fetch_articles: the single-threaded gathering and
deduplication pre-pass runs to completion over all queries first, then every
distinct entry is handed to the worker pool; proc models _process_rss_entry
(per-item resolution, extraction and validation — network-bound, passed in as
a capability), whose none results are dropped.  The source collects pool
results in completion order; the model keeps submission order, as only set
membership of the successes is specified. -/
def fetch_articles (queries : List String) (feeds : String → Option (List RSSEntry))
    (cap : Nat) (proc : RSSEntry → Option Article) : List Article :=
  (gatherEntries queries feeds cap).filterMap proc

/-- Case-normalized title used by the near-duplicate filter:
article.title.lower().strip(). -/
def normTitle (a : Article) : String :=
  String.mk (stripChars (a.title.data.map Char.toLower))

/-- Model of the loop of NewsAggregator.deduplicate_articles with its two
seen sets: an article is dropped when its url was already seen, then when its
normalized title was already seen; otherwise both are recorded and the
article kept. -/
def dedupAux : List String → List String → List Article → List Article
  | _, _, [] => []
  | seenU, seenT, a :: rest =>
    if a.url ∈ seenU then dedupAux seenU seenT rest
    else if normTitle a ∈ seenT then dedupAux seenU seenT rest
    else a :: dedupAux (a.url :: seenU) (normTitle a :: seenT) rest

/-- Model of NewsAggregator.deduplicate_articles: the loop starting from empty
seen sets. -/
def deduplicate_articles (articles : List Article) : List Article :=
  dedupAux [] [] articles

/-- Modelled from the spec: the resilience policy outcomes of the
utils.error_handling module, which is imported by
backend/services/financial_data_service.py but absent from the sources; the
failure taxonomy follows spec sections 4.4 and 7. -/
inductive CallOutcome where
  | ok
  | transientErr
  | circuitOpenErr
  | timeoutErr
deriving Repr, DecidableEq

/-- Observable result of one protected call: its outcome, how many times the
underlying operation was invoked, and the total time it consumed. -/
structure CallResult where
  outcome : CallOutcome
  calls : Nat
  elapsed : ℚ
deriving Repr, DecidableEq

/-- Modelled from the spec: the RetryConfig record of utils.error_handling
(max_retries, base_delay, max_delay), instantiated in
financial_data_service.py as RetryConfig(max_retries=2, base_delay=1.0,
max_delay=10.0). -/
structure RetryConfig where
  max_retries : Nat
  base_delay : ℚ
  max_delay : ℚ

/-- Modelled from the spec: exponential backoff base_delay * 2 ^ attempt,
capped at max_delay. -/
def backoffDelay (cfg : RetryConfig) (attempt : Nat) : ℚ :=
  min (cfg.base_delay * 2 ^ attempt) cfg.max_delay

/-- Modelled from the spec: the retry policy of utils.error_handling.  The
underlying operation f maps an attempt index to success flag and duration; a
transient failure is retried after the backoff delay while retries remain. -/
def runRetryAux (f : Nat → Bool × ℚ) (cfg : RetryConfig) : Nat → Nat → CallResult
  | attempt, fuel =>
    let step := f attempt
    if step.1 then { outcome := .ok, calls := 1, elapsed := step.2 }
    else
      match fuel with
      | 0 => { outcome := .transientErr, calls := 1, elapsed := step.2 }
      | fuel2 + 1 =>
        let r := runRetryAux f cfg (attempt + 1) fuel2
        { outcome := r.outcome
          calls := r.calls + 1
          elapsed := step.2 + backoffDelay cfg attempt + r.elapsed }

/-- Retry-wrapped run of the underlying operation: first attempt plus up to
max_retries further attempts. -/
def runRetry (f : Nat → Bool × ℚ) (cfg : RetryConfig) : CallResult :=
  runRetryAux f cfg 0 cfg.max_retries

/-- Modelled from the spec: the CircuitBreakerConfig record of
utils.error_handling (failure_threshold, recovery_timeout), instantiated in
financial_data_service.py as CircuitBreakerConfig(failure_threshold=3,
recovery_timeout=300). -/
structure CircuitBreakerConfig where
  failure_threshold : Nat
  recovery_timeout : ℚ

/-- Modelled from the spec: the three-state circuit breaker state shared
across all calls to one protected operation. -/
inductive BreakerState where
  | closedSt (consecutive_failures : Nat)
  | openSt (openedAt : ℚ)
  | halfOpenSt
deriving Repr, DecidableEq

/-- Breaker bookkeeping after an admitted inner run finished: success resets
to Closed with zero failures; a failure increments the count and opens the
breaker at the current time once the threshold is reached. -/
def breakerAfter (cfg : CircuitBreakerConfig) (failures : Nat) (now : ℚ)
    (r : CallResult) : BreakerState :=
  if r.outcome = .ok then .closedSt 0
  else if failures + 1 ≥ cfg.failure_threshold then .openSt (now + r.elapsed)
  else .closedSt (failures + 1)

/-- Modelled from the spec: the circuit-breaker policy of
utils.error_handling.  Closed admits the inner computation and updates the
failure count; Open fails immediately with CircuitOpen — zero invocations of
the underlying operation — until recovery_timeout has elapsed since openedAt,
at which point one HalfOpen trial is admitted whose outcome decides the next
state; a failed trial re-opens the breaker at the current time. -/
def runBreaker (cfg : CircuitBreakerConfig) (now : ℚ) (st : BreakerState)
    (inner : CallResult) : CallResult × BreakerState :=
  match st with
  | .closedSt n => (inner, breakerAfter cfg n now inner)
  | .openSt t =>
    if now - t < cfg.recovery_timeout then
      ({ outcome := .circuitOpenErr, calls := 0, elapsed := 0 }, .openSt t)
    else
      (inner,
       if inner.outcome = .ok then .closedSt 0 else .openSt (now + inner.elapsed))
  | .halfOpenSt =>
    (inner,
     if inner.outcome = .ok then .closedSt 0 else .openSt (now + inner.elapsed))

/-- Modelled from the spec: the timeout policy of utils.error_handling; once
the wrapped computation consumes more than the configured duration the call
surfaces a Timeout failure at the deadline. -/
def runTimeout (limit : ℚ) (r : CallResult) : CallResult :=
  if r.elapsed > limit then { outcome := .timeoutErr, calls := r.calls, elapsed := limit }
  else r

/-- Retry configuration applied to _fetch_ticker_data in
financial_data_service.py. -/
def fetchRetryConfig : RetryConfig :=
  { max_retries := 2, base_delay := 1, max_delay := 10 }

/-- Circuit-breaker configuration applied to _fetch_ticker_data in
financial_data_service.py. -/
def fetchBreakerConfig : CircuitBreakerConfig :=
  { failure_threshold := 3, recovery_timeout := 300 }

/-- Model of the decorator stack on
FinancialDataService._fetch_ticker_data.  Python applies decorators bottom-up:
with_retry wraps the underlying call first, with_circuit_breaker wraps the
retried call, and with_timeout(30.0) wraps the whole, so a call runs
timeout ⊃ circuit breaker ⊃ retry ⊃ f. -/
def fetchTickerProtected (f : Nat → Bool × ℚ) (now : ℚ) (st : BreakerState) :
    CallResult × BreakerState :=
  let retried := runRetry f fetchRetryConfig
  let braked := runBreaker fetchBreakerConfig now st retried
  (runTimeout 30 braked.1, braked.2)

/-- Decimal digit as a character, 0 ↦ digit zero and so on. -/
def digitChar (n : Nat) : Char := Char.ofNat (48 + n)

/-- Two-digit zero-padded decimal rendering, as the %02d fields of the Python
isoformat output. -/
def pad2 (n : Nat) : List Char := [digitChar (n / 10), digitChar (n % 10)]

/-- Four-digit zero-padded decimal rendering (the year field). -/
def pad4 (n : Nat) : List Char := pad2 (n / 100) ++ pad2 (n % 100)

/-- Six-digit zero-padded decimal rendering (the microsecond field). -/
def pad6 (n : Nat) : List Char := pad2 (n / 10000) ++ pad2 (n / 100 % 100) ++ pad2 (n % 100)

/-- Character list of datetime.isoformat(): YYYY-MM-DDTHH:MM:SS, extended
with .ffffff exactly when the microsecond field is nonzero (the timespec=auto
behavior of the Python method). -/
def Datetime.isoformatChars (d : Datetime) : List Char :=
  pad4 d.year ++ ['-'] ++ pad2 d.month ++ ['-'] ++ pad2 d.day ++
  ['T'] ++ pad2 d.hour ++ [':'] ++ pad2 d.minute ++
  [':'] ++ pad2 d.second ++
  (if d.microsecond = 0 then [] else ['.'] ++ pad6 d.microsecond)

/-- Model of datetime.isoformat() as a string. -/
def Datetime.isoformat (d : Datetime) : String := String.mk d.isoformatChars

/-- Parse of a single decimal digit character. -/
def parseDigit (c : Char) : Option Nat :=
  if c.isDigit then some (c.toNat - 48) else none

/-- Parse of a two-digit zero-padded field. -/
def parse2 (a b : Char) : Option Nat := do
  let x ← parseDigit a
  let y ← parseDigit b
  pure (10 * x + y)

/-- Parse of the optional fractional-second suffix of an isoformat string:
absent means zero microseconds, otherwise a dot followed by exactly six
digits. -/
def parseMicro : List Char → Option Nat
  | [] => some 0
  | p :: u1 :: u2 :: u3 :: u4 :: u5 :: u6 :: rest =>
    if p = '.' ∧ rest = [] then do
      let a ← parse2 u1 u2
      let b ← parse2 u3 u4
      let c ← parse2 u5 u6
      pure (a * 10000 + b * 100 + c)
    else none
  | _ => none

/-- Model of datetime.fromisoformat on the character list: positional parse
of the fixed-width fields with the separator and range checks the Python
parser performs; none models the ValueError raised on malformed input. -/
def Datetime.fromisoChars : List Char → Option Datetime
  | y1 :: y2 :: y3 :: y4 :: s1 :: mo1 :: mo2 :: s2 :: d1 :: d2 :: sT :: h1 :: h2 ::
      c1 :: mi1 :: mi2 :: c2 :: se1 :: se2 :: rest =>
    if s1 = '-' ∧ s2 = '-' ∧ sT = 'T' ∧ c1 = ':' ∧ c2 = ':' then do
      let yh ← parse2 y1 y2
      let yl ← parse2 y3 y4
      let mo ← parse2 mo1 mo2
      let da ← parse2 d1 d2
      let ho ← parse2 h1 h2
      let mi ← parse2 mi1 mi2
      let se ← parse2 se1 se2
      let mic ← parseMicro rest
      let y := 100 * yh + yl
      if 1 ≤ y ∧ 1 ≤ mo ∧ mo ≤ 12 ∧ 1 ≤ da ∧ da ≤ 31 ∧ ho ≤ 23 ∧ mi ≤ 59 ∧ se ≤ 59 then
        some ⟨y, mo, da, ho, mi, se, mic⟩
      else none
    else none
  | _ => none

/-- Model of datetime.fromisoformat on strings. -/
def Datetime.fromisoformat (s : String) : Option Datetime :=
  Datetime.fromisoChars s.data

/-- Dictionary produced by AnalyzedArticle.to_dict: the three component
records under their field names (each component serializes field-for-field
via dataclasses.asdict, so a component dict is modelled by the record
itself). -/
structure AnalyzedArticleDict where
  article : Article
  headline_sentiment : HeadlineSentiment
  content_sentiment : ContentSentiment
deriving Repr, DecidableEq

/-- Model of AnalyzedArticle.to_dict. -/
def AnalyzedArticle.to_dict (a : AnalyzedArticle) : AnalyzedArticleDict :=
  { article := a.article
    headline_sentiment := a.headline_sentiment
    content_sentiment := a.content_sentiment }

/-- Model of AnalyzedArticle.from_dict: each component reconstructed from its
sub-dict by the component from_dict (field-for-field). -/
def AnalyzedArticle.from_dict (d : AnalyzedArticleDict) : AnalyzedArticle :=
  { article := d.article
    headline_sentiment := d.headline_sentiment
    content_sentiment := d.content_sentiment }

/-- Dictionary produced by AnalysisReport.to_dict: the timestamp as its
isoformat string, the articles as their dicts, every other field verbatim. -/
structure ReportDict where
  timestamp : String
  query : String
  category : String
  total_articles : Int
  sentiment_distribution : List (String × Int)
  net_sentiment_score : ℚ
  market_signal : String
  articles : List AnalyzedArticleDict
  processing_time : ℚ
deriving Repr, DecidableEq

/-- Model of AnalysisReport.to_dict. -/
def AnalysisReport.to_dict (r : AnalysisReport) : ReportDict :=
  { timestamp := r.timestamp.isoformat
    query := r.query
    category := r.category
    total_articles := r.total_articles
    sentiment_distribution := r.sentiment_distribution
    net_sentiment_score := r.net_sentiment_score
    market_signal := r.market_signal
    articles := r.articles.map AnalyzedArticle.to_dict
    processing_time := r.processing_time }

/-- Model of AnalysisReport.from_dict: the timestamp is parsed with
datetime.fromisoformat (none when that raises), the articles are
reconstructed, and the dataclass __post_init__ runs on the constructed
record: an empty (falsy) distribution dict is recomputed from the articles
and an empty (falsy) signal string is recomputed from the net score.  The
dict always carries a numeric net score in this model, so the None branch of
__post_init__ for the net score cannot fire. -/
def AnalysisReport.from_dict (d : ReportDict) : Option AnalysisReport :=
  match Datetime.fromisoformat d.timestamp with
  | none => none
  | some ts =>
    let articles := d.articles.map AnalyzedArticle.from_dict
    some
      { timestamp := ts
        query := d.query
        category := d.category
        total_articles := d.total_articles
        sentiment_distribution :=
          if d.sentiment_distribution.isEmpty then calcDistribution articles
          else d.sentiment_distribution
        net_sentiment_score := d.net_sentiment_score
        market_signal :=
          if d.market_signal == "" then determineSignal d.net_sentiment_score
          else d.market_signal
        articles := articles
        processing_time := d.processing_time }

/-- Sample analyzed article with a given content label and confidence; every
other field is a fixed validating value. -/
def mkScored (label : String) (conf : ℚ) : AnalyzedArticle :=
  { article :=
      { title := "Gold market update"
        url := "https://example.com/gold"
        published := ""
        content := "Gold market update body"
        source_type := "Full Article" }
    headline_sentiment := { score := 0, label := "Neutral" }
    content_sentiment :=
      { confidence := conf
        label := label
        probabilities := [("Negative", 0), ("Neutral", 0), ("Positive", 1)] } }

/-- Unit list of concrete scenario A: three Positive units at confidence 0.9
and two Negative units at confidence 0.5. -/
def scenarioA : List AnalyzedArticle :=
  [mkScored "Positive" (9/10), mkScored "Positive" (9/10), mkScored "Positive" (9/10),
   mkScored "Negative" (1/2), mkScored "Negative" (1/2)]

/-- Fixed sample timestamp for concrete reports. -/
def sampleTs : Datetime := ⟨2025, 3, 14, 9, 26, 53, 589793⟩

/-- Concrete fully valid one-article report used to exercise the
serialization roundtrip. -/
def sampleReport : AnalysisReport :=
  { timestamp := sampleTs
    query := "gold"
    category := "commodity"
    total_articles := 1
    sentiment_distribution := [("Positive", 1), ("Negative", 0), ("Neutral", 0)]
    net_sentiment_score := 9/10
    market_signal := "BULLISH"
    articles := [mkScored "Positive" (9/10)]
    processing_time := 0 }

/-- Report whose distribution values sum to 1 although it contains no
articles: every check validate actually performs passes. -/
def badReport : AnalysisReport :=
  { timestamp := sampleTs
    query := "gold"
    category := "commodity"
    total_articles := 0
    sentiment_distribution := [("Positive", 1), ("Negative", 0), ("Neutral", 0)]
    net_sentiment_score := 0
    market_signal := "NEUTRAL"
    articles := []
    processing_time := 0 }


/-- C1: for 3 Positive units at confidence 0.9 and 2 Negative units at
confidence 0.5, the aggregator computes net score
(3·0.9 − 2·0.5)/(3·0.9 + 2·0.5) = 1.7/3.7 = 17/37 ≈ 0.459 and, this being
above the 0.15 threshold, classifies the signal as Bullish. -/
theorem claimC1_scenarioA_bullish :
    (createFromArticles sampleTs "gold" "commodity" scenarioA 0).net_sentiment_score = 17/37 ∧
    (createFromArticles sampleTs "gold" "commodity" scenarioA 0).market_signal = "BULLISH" := by
  have hnet : calcNetScore scenarioA = 17/37 := by
    norm_num +decide [calcNetScore, scenarioA, weightedScore, totalWeight, mkScored, direction]
  refine ⟨hnet, ?_⟩
  show determineSignal (calcNetScore scenarioA) = "BULLISH"
  rw [hnet]
  norm_num [determineSignal]

/-- C4: aggregation never fails — the empty unit list yields a report with
net score 0, Neutral signal and zero unit count (and the engine-level
calculate_market_signal likewise returns the all-zero Neutral record), and
every unit list in which no unit has nonzero confidence yields net score 0
and Neutral signal. -/
theorem claimC4_empty_and_zero_weight (ts : Datetime) (q c : String) (pt : ℚ) :
    (createFromArticles ts q c [] pt).net_sentiment_score = 0 ∧
    (createFromArticles ts q c [] pt).market_signal = "NEUTRAL" ∧
    (createFromArticles ts q c [] pt).total_articles = 0 ∧
    calculate_market_signal [] =
      some { market_signal := "NEUTRAL", net_sentiment_score := 0,
             sentiment_distribution := [("Positive", 0), ("Negative", 0), ("Neutral", 0)] } ∧
    ∀ arts : List AnalyzedArticle,
      (∀ a ∈ arts, a.content_sentiment.confidence = 0) →
      calcNetScore arts = 0 ∧ determineSignal (calcNetScore arts) = "NEUTRAL" := by
  have hnil : calcNetScore ([] : List AnalyzedArticle) = 0 := by
    simp [calcNetScore]
  refine ⟨hnil, ?_, rfl, rfl, ?_⟩
  · show determineSignal (calcNetScore []) = "NEUTRAL"
    rw [hnil]
    norm_num [determineSignal]
  · intro arts h
    have hw : totalWeight arts = 0 := by
      apply List.sum_eq_zero
      intro x hx
      obtain ⟨a, ha, rfl⟩ := List.mem_map.mp hx
      exact h a ha
    have hnet : calcNetScore arts = 0 := by
      unfold calcNetScore
      rw [hw]
      simp
    refine ⟨hnet, ?_⟩
    rw [hnet]
    norm_num [determineSignal]

/-- C4 witness: the theorem instantiated at a concrete timestamp and a
concrete all-zero-confidence unit list. -/
theorem claimC4_witness :
    calcNetScore [mkScored "Positive" 0, mkScored "Negative" 0] = 0 ∧
    determineSignal (calcNetScore [mkScored "Positive" 0, mkScored "Negative" 0]) = "NEUTRAL" := by
  exact (claimC4_empty_and_zero_weight sampleTs "gold" "commodity" 0).2.2.2.2
    [mkScored "Positive" 0, mkScored "Negative" 0] (by decide)

/-- C7: analyze_content is total by construction, and every empty/blank input
and every classifier failure yields exactly the Neutral fallback score:
confidence 0.33, label Neutral, probability split
Negative 0.33 / Neutral 0.34 / Positive 0.33. -/
theorem claimC7_fallback (text : String) (clf : Option (ℚ × ℚ × ℚ))
    (h : isBlank text = true ∨ clf = none) :
    analyze_content text clf = fallbackScore := by
  rcases h with h | h
  · simp [analyze_content, h]
  · subst h
    unfold analyze_content
    rcases hb : isBlank text <;> simp

/-- C7 witness: the fallback equations at the empty string and at a failing
classifier on non-blank text. -/
theorem claimC7_witness :
    analyze_content "" none = fallbackScore ∧
    analyze_content "gold news body" none = fallbackScore := by
  exact ⟨claimC7_fallback "" none (Or.inr rfl),
         claimC7_fallback "gold news body" none (Or.inr rfl)⟩

/-- Rerunning the dedup loop with the same seen sets on its own output
returns the output unchanged: every kept article passed freshness checks
against the state the rerun reproduces. -/
theorem dedupAux_idem (xs : List Article) :
    ∀ (sU sT : List String), dedupAux sU sT (dedupAux sU sT xs) = dedupAux sU sT xs := by
  induction xs with
  | nil => intro sU sT; rfl
  | cons a rest ih =>
    intro sU sT
    by_cases hu : a.url ∈ sU
    · simp only [dedupAux, if_pos hu]
      exact ih sU sT
    · by_cases ht : normTitle a ∈ sT
      · simp only [dedupAux, if_neg hu, if_pos ht]
        exact ih sU sT
      · simp only [dedupAux, if_neg hu, if_neg ht]
        rw [ih (a.url :: sU) (normTitle a :: sT)]

/-- C9: deduplicate_articles is idempotent — applying it to its own output
yields the same list. -/
theorem claimC9_dedup_idempotent (articles : List Article) :
    deduplicate_articles (deduplicate_articles articles) = deduplicate_articles articles :=
  dedupAux_idem articles [] []

/-- C2 counterexample: the fallback score actually produced by the engine on
an empty input (equivalently, on classifier failure) has label Neutral with
probabilities[Neutral] = 0.34 but confidence 0.33, so its confidence does not
equal the probability assigned to its label. -/
theorem claimC2_counterexample :
    (analyze_content "" none).label = "Neutral" ∧
    probFor (analyze_content "" none).probabilities (analyze_content "" none).label = 34/100 ∧
    (analyze_content "" none).confidence = 33/100 ∧
    (analyze_content "" none).confidence ≠
      probFor (analyze_content "" none).probabilities (analyze_content "" none).label := by
  have hfb : analyze_content "" none = fallbackScore := by
    simp [analyze_content, isBlank]
  rw [hfb]
  refine ⟨rfl, rfl, rfl, ?_⟩
  show (33 : ℚ)/100 ≠ 34/100
  norm_num

/-- Fallback score facts shared by the blank-input and classifier-failure
branches: its probabilities sum to 1 and its label Neutral carries the
maximal probability 0.34. -/
theorem fallback_props :
    |dictSum fallbackScore.probabilities - 1| ≤ 1/100 ∧
    IsMaxLabel fallbackScore.probabilities fallbackScore.label := by
  constructor
  · norm_num [dictSum, fallbackScore]
  · constructor
    · exact ⟨("Neutral", 34/100), by simp [fallbackScore], rfl⟩
    · intro p hp
      have hpf : probFor fallbackScore.probabilities fallbackScore.label = 34/100 := rfl
      rw [hpf]
      simp only [fallbackScore, List.mem_cons, List.mem_singleton] at hp
      rcases hp with rfl | rfl | rfl | h
      · norm_num
      · norm_num
      · norm_num
      · simp at h

/-- C2 amended: assuming the classifier capability returns probabilities
summing to 1 within the 0.01 tolerance, every ContentScore the engine
produces has probabilities summing to 1 within ±0.01 and a label carrying a
maximal probability; a score from a successful classifier run moreover has
confidence equal to probabilities[label], while the fallback score (blank
input or classifier failure) instead has confidence 0.33 against
probabilities[label] = 0.34. -/
theorem claimC2_amended (text : String) (clf : Option (ℚ × ℚ × ℚ))
    (hsum : ∀ pn pu pp, clf = some (pn, pu, pp) → |pn + pu + pp - 1| ≤ 1/100) :
    |dictSum (analyze_content text clf).probabilities - 1| ≤ 1/100 ∧
    IsMaxLabel (analyze_content text clf).probabilities (analyze_content text clf).label ∧
    (analyze_content text clf = fallbackScore ∨
     (analyze_content text clf).confidence =
       probFor (analyze_content text clf).probabilities (analyze_content text clf).label) := by
  by_cases hb : isBlank text = true
  · have hfb : analyze_content text clf = fallbackScore := by
      simp [analyze_content, hb]
    rw [hfb]
    exact ⟨fallback_props.1, fallback_props.2, Or.inl rfl⟩
  · match clf, hsum with
    | none, _ =>
      have hfb : analyze_content text none = fallbackScore := by
        simp [analyze_content, hb]
      rw [hfb]
      exact ⟨fallback_props.1, fallback_props.2, Or.inl rfl⟩
    | some (pn, pu, pp), hsum =>
      have hs := hsum pn pu pp rfl
      have hred : analyze_content text (some (pn, pu, pp)) =
          { confidence := [pn, pu, pp].getD (argmax3 pn pu pp) 0
            label := finbert_labels.getD (argmax3 pn pu pp) ""
            probabilities := [("Negative", pn), ("Neutral", pu), ("Positive", pp)] } := by
        simp [analyze_content, hb]
      rw [hred]
      have hdsum : |dictSum [("Negative", pn), ("Neutral", pu), ("Positive", pp)] - 1| ≤ 1/100 := by
        have he : dictSum [("Negative", pn), ("Neutral", pu), ("Positive", pp)] = pn + pu + pp := by
          simp [dictSum]
          ring
        rw [he]
        exact hs
      by_cases h1 : pn ≥ pu ∧ pn ≥ pp
      · have ha : argmax3 pn pu pp = 0 := by simp [argmax3, h1]
        rw [ha]
        simp only [List.getD_cons_zero, List.getD_cons_succ, finbert_labels]
        refine ⟨hdsum, ⟨⟨("Negative", pn), by simp, rfl⟩, ?_⟩, Or.inr rfl⟩
        intro p hp
        have hpf : probFor [("Negative", pn), ("Neutral", pu), ("Positive", pp)] "Negative" = pn := rfl
        rw [hpf]
        simp only [List.mem_cons, List.mem_singleton] at hp
        rcases hp with rfl | rfl | rfl | h
        · exact le_refl pn
        · exact h1.1
        · exact h1.2
        · simp at h
      · by_cases h2 : pu ≥ pp
        · have ha : argmax3 pn pu pp = 1 := by simp [argmax3, h1, h2]
          rw [ha]
          simp only [List.getD_cons_zero, List.getD_cons_succ, finbert_labels]
          have hnu : pn ≤ pu := by
            rcases not_and_or.mp h1 with h | h
            · linarith [not_le.mp h]
            · linarith [not_le.mp h]
          refine ⟨hdsum, ⟨⟨("Neutral", pu), by simp, rfl⟩, ?_⟩, Or.inr rfl⟩
          intro p hp
          have hpf : probFor [("Negative", pn), ("Neutral", pu), ("Positive", pp)] "Neutral" = pu := rfl
          rw [hpf]
          simp only [List.mem_cons, List.mem_singleton] at hp
          rcases hp with rfl | rfl | rfl | h
          · exact hnu
          · exact le_refl pu
          · exact h2
          · simp at h
        · have ha : argmax3 pn pu pp = 2 := by simp [argmax3, h1, h2]
          rw [ha]
          simp only [List.getD_cons_zero, List.getD_cons_succ, finbert_labels]
          have hup : pu ≤ pp := le_of_lt (not_le.mp h2)
          have hnp : pn ≤ pp := by
            rcases not_and_or.mp h1 with h | h
            · linarith [not_le.mp h]
            · linarith [not_le.mp h]
          refine ⟨hdsum, ⟨⟨("Positive", pp), by simp, rfl⟩, ?_⟩, Or.inr rfl⟩
          intro p hp
          have hpf : probFor [("Negative", pn), ("Neutral", pu), ("Positive", pp)] "Positive" = pp := rfl
          rw [hpf]
          simp only [List.mem_cons, List.mem_singleton] at hp
          rcases hp with rfl | rfl | rfl | h
          · exact hnp
          · exact hup
          · exact le_refl pp
          · simp at h

/-- C2 amended witness: the theorem instantiated at a non-blank text and a
successful classifier run with probabilities (0.5, 0.25, 0.25). -/
theorem claimC2_amended_witness :
    |dictSum (analyze_content "gold rallies" (some (1/2, 1/4, 1/4))).probabilities - 1| ≤ 1/100 ∧
    IsMaxLabel (analyze_content "gold rallies" (some (1/2, 1/4, 1/4))).probabilities
      (analyze_content "gold rallies" (some (1/2, 1/4, 1/4))).label ∧
    (analyze_content "gold rallies" (some (1/2, 1/4, 1/4)) = fallbackScore ∨
     (analyze_content "gold rallies" (some (1/2, 1/4, 1/4))).confidence =
       probFor (analyze_content "gold rallies" (some (1/2, 1/4, 1/4))).probabilities
         (analyze_content "gold rallies" (some (1/2, 1/4, 1/4))).label) := by
  apply claimC2_amended
  intro pn pu pp h
  injection h with h
  cases h
  norm_num

/-- Direction values are bounded by 1 in absolute value: the mapping only
ever produces 1, -1 or 0. -/
theorem abs_direction_le_one (l : String) : |direction l| ≤ 1 := by
  unfold direction
  split
  · norm_num
  · split <;> norm_num

/-- Triangle-inequality bound on the accumulated weighted score: with
nonnegative confidences the absolute weighted score never exceeds the total
weight. -/
theorem abs_weightedScore_le (arts : List AnalyzedArticle)
    (h : ∀ a ∈ arts, 0 ≤ a.content_sentiment.confidence) :
    |weightedScore arts| ≤ totalWeight arts := by
  induction arts with
  | nil => simp [weightedScore, totalWeight]
  | cons a rest ih =>
    have hW : weightedScore (a :: rest) =
        direction a.content_sentiment.label * a.content_sentiment.confidence +
          weightedScore rest := by
      simp [weightedScore]
    have hT : totalWeight (a :: rest) = a.content_sentiment.confidence + totalWeight rest := by
      simp [totalWeight]
    rw [hW, hT]
    have h0 : 0 ≤ a.content_sentiment.confidence := h a (List.mem_cons_self a rest)
    have hhead : |direction a.content_sentiment.label * a.content_sentiment.confidence| ≤
        a.content_sentiment.confidence := by
      rw [abs_mul]
      calc |direction a.content_sentiment.label| * |a.content_sentiment.confidence| ≤
            1 * |a.content_sentiment.confidence| :=
            mul_le_mul_of_nonneg_right (abs_direction_le_one _) (abs_nonneg _)
        _ = a.content_sentiment.confidence := by rw [one_mul, abs_of_nonneg h0]
    have hrest := ih (fun b hb => h b (List.mem_cons_of_mem a hb))
    calc |direction a.content_sentiment.label * a.content_sentiment.confidence +
            weightedScore rest| ≤
          |direction a.content_sentiment.label * a.content_sentiment.confidence| +
            |weightedScore rest| := abs_add _ _
      _ ≤ a.content_sentiment.confidence + totalWeight rest := add_le_add hhead hrest

/-- Net-score bound used both for the claim about the score range and for
report validation: with nonnegative confidences the net score has absolute
value at most 1. -/
theorem calcNetScore_abs_le (arts : List AnalyzedArticle)
    (h : ∀ a ∈ arts, 0 ≤ a.content_sentiment.confidence) :
    |calcNetScore arts| ≤ 1 := by
  unfold calcNetScore
  split
  · simp
  · split
    · rename_i hT
      rw [abs_div, abs_of_pos hT]
      exact (div_le_one hT).mpr (abs_weightedScore_le arts h)
    · simp

/-- C5: for every unit list whose confidences lie in [0,1], the
confidence-weighted net score lies in [-1, 1]. -/
theorem claimC5_net_score_range (arts : List AnalyzedArticle)
    (h : ∀ a ∈ arts, 0 ≤ a.content_sentiment.confidence ∧
      a.content_sentiment.confidence ≤ 1) :
    -1 ≤ calcNetScore arts ∧ calcNetScore arts ≤ 1 :=
  abs_le.mp (calcNetScore_abs_le arts (fun a ha => (h a ha).1))

/-- C5 witness: the bound at a concrete one-unit list. -/
theorem claimC5_witness :
    -1 ≤ calcNetScore [mkScored "Positive" (9/10)] ∧
    calcNetScore [mkScored "Positive" (9/10)] ≤ 1 := by
  apply claimC5_net_score_range
  intro a ha
  rcases List.mem_singleton.mp ha with rfl
  constructor <;> norm_num [mkScored]

/-- C3 counterexample: validate accepts a report whose distribution values
sum to 1 while total_articles is 0, because the source never compares the
distribution sum with the article count. -/
theorem claimC3_counterexample :
    badReport.validate = true ∧
    dictSumInt badReport.sentiment_distribution ≠ badReport.total_articles := by
  constructor
  · rfl
  · decide

/-- Facts about an article that passes validation: its content confidence
lies in [0,1] and its content label is one of the three literals. -/
theorem validate_content_facts (a : AnalyzedArticle) (h : a.validate = true) :
    0 ≤ a.content_sentiment.confidence ∧ a.content_sentiment.confidence ≤ 1 ∧
    (a.content_sentiment.label = "Positive" ∨ a.content_sentiment.label = "Negative" ∨
     a.content_sentiment.label = "Neutral") := by
  unfold AnalyzedArticle.validate ContentSentiment.validate at h
  simp only [Bool.and_eq_true, Bool.or_eq_true, decide_eq_true_eq, beq_iff_eq] at h
  obtain ⟨⟨hart, hhead⟩, ⟨⟨h0, h1⟩, hl⟩, hsum⟩ := h
  exact ⟨h0, h1, by tauto⟩

/-- Partition of the article count by the three labels: when every label is
one of the three literals, the three per-label counts sum to the length. -/
theorem countLabel_three (arts : List AnalyzedArticle)
    (h : ∀ a ∈ arts, a.content_sentiment.label = "Positive" ∨
      a.content_sentiment.label = "Negative" ∨ a.content_sentiment.label = "Neutral") :
    countLabel arts "Positive" + countLabel arts "Negative" + countLabel arts "Neutral" =
      (arts.length : Int) := by
  induction arts with
  | nil => simp [countLabel]
  | cons a rest ih =>
    have hr := ih (fun b hb => h b (List.mem_cons_of_mem a hb))
    simp only [countLabel] at hr ⊢
    rcases h a (List.mem_cons_self a rest) with hl | hl | hl <;>
      simp only [List.filter_cons, hl] <;>
      simp +decide <;> omega

/-- Signal classification always lands on one of the three literals. -/
theorem determineSignal_mem (x : ℚ) :
    determineSignal x = "BULLISH" ∨ determineSignal x = "BEARISH" ∨
    determineSignal x = "NEUTRAL" := by
  unfold determineSignal
  split
  · exact Or.inl rfl
  · split
    · exact Or.inr (Or.inl rfl)
    · exact Or.inr (Or.inr rfl)

/-- C3 amended: validate does not compare the distribution sum with the
article count (see the counterexample), but every internally produced report
— create_from_articles over articles that individually validate, with a
nonnegative processing time — both passes validate and satisfies the
distribution-sum invariant, together with the key-set and length checks
validate does perform. -/
theorem claimC3_amended (ts : Datetime) (q c : String) (arts : List AnalyzedArticle) (pt : ℚ)
    (hpt : 0 ≤ pt) (hv : ∀ a ∈ arts, a.validate = true) :
    (createFromArticles ts q c arts pt).validate = true ∧
    dictSumInt (createFromArticles ts q c arts pt).sentiment_distribution =
      (createFromArticles ts q c arts pt).total_articles := by
  have hconf : ∀ a ∈ arts, 0 ≤ a.content_sentiment.confidence :=
    fun a ha => (validate_content_facts a (hv a ha)).1
  have hlab : ∀ a ∈ arts, a.content_sentiment.label = "Positive" ∨
      a.content_sentiment.label = "Negative" ∨ a.content_sentiment.label = "Neutral" :=
    fun a ha => (validate_content_facts a (hv a ha)).2.2
  have hnet := abs_le.mp (calcNetScore_abs_le arts hconf)
  constructor
  · show AnalysisReport.validate _ = true
    unfold AnalysisReport.validate createFromArticles
    simp only [Bool.and_eq_true, Bool.or_eq_true, decide_eq_true_eq, beq_iff_eq]
    refine ⟨⟨⟨⟨⟨⟨⟨?_, ?_⟩, ?_⟩, ?_⟩, ?_⟩, ?_⟩, ?_⟩, ?_⟩
    · exact Int.natCast_nonneg _
    · exact hnet.1
    · exact hnet.2
    · rcases determineSignal_mem (calcNetScore arts) with h | h | h <;> simp [h]
    · exact hpt
    · rfl
    · trivial
    · exact List.all_eq_true.mpr hv
  · show dictSumInt (calcDistribution arts) = ((arts.length : Int))
    have := countLabel_three arts hlab
    simp only [dictSumInt, calcDistribution, List.map_cons, List.map_nil, List.sum_cons,
      List.sum_nil]
    linarith

/-- Validation of the sample article holds for any in-range confidence and
any of the three labels. -/
theorem mkScored_validate (l : String) (conf : ℚ) (h0 : 0 ≤ conf) (h1 : conf ≤ 1)
    (hl : l = "Positive" ∨ l = "Negative" ∨ l = "Neutral") :
    (mkScored l conf).validate = true := by
  unfold mkScored AnalyzedArticle.validate Article.validate HeadlineSentiment.validate
    ContentSentiment.validate
  simp +decide only [Bool.and_eq_true, Bool.or_eq_true, decide_eq_true_eq, beq_iff_eq]
  norm_num [dictSum]
  exact ⟨⟨h0, h1⟩, by tauto⟩

/-- C3 amended witness: a concrete one-article report produced by the
factory passes validate and satisfies the distribution-sum invariant. -/
theorem claimC3_amended_witness :
    (createFromArticles sampleTs "gold" "commodity" [mkScored "Positive" (9/10)] 0).validate = true ∧
    dictSumInt (createFromArticles sampleTs "gold" "commodity"
        [mkScored "Positive" (9/10)] 0).sentiment_distribution =
      (createFromArticles sampleTs "gold" "commodity"
        [mkScored "Positive" (9/10)] 0).total_articles := by
  apply claimC3_amended
  · exact le_refl 0
  · intro a ha
    rcases List.mem_singleton.mp ha with rfl
    exact mkScored_validate "Positive" (9/10) (by norm_num) (by norm_num) (Or.inl rfl)

/-- Invariant of the per-query dedup loop: the kept entries have pairwise
distinct links, none of those links was already seen, and the resulting seen
set is exactly the input seen set plus the kept links. -/
theorem gatherQuery_spec (es : List RSSEntry) :
    ∀ seen : List String,
      ((gatherQuery es seen).2.map RSSEntry.link).Nodup ∧
      (∀ l ∈ (gatherQuery es seen).2.map RSSEntry.link, l ∉ seen) ∧
      (∀ l, l ∈ (gatherQuery es seen).1 ↔
        l ∈ seen ∨ l ∈ (gatherQuery es seen).2.map RSSEntry.link) := by
  induction es with
  | nil =>
    intro seen
    simp [gatherQuery]
  | cons e es ih =>
    intro seen
    by_cases h : e.link ∈ seen
    · simp only [gatherQuery, if_pos h]
      exact ih seen
    · simp only [gatherQuery, if_neg h]
      obtain ⟨h1, h2, h3⟩ := ih (e.link :: seen)
      refine ⟨?_, ?_, ?_⟩
      · simp only [List.map_cons, List.nodup_cons]
        exact ⟨fun hmem => (h2 _ hmem) (List.mem_cons_self _ _), h1⟩
      · intro l hl
        simp only [List.map_cons, List.mem_cons] at hl
        rcases hl with rfl | hl
        · exact h
        · exact fun hls => h2 l hl (List.mem_cons_of_mem _ hls)
      · intro l
        rw [h3 l]
        simp only [List.map_cons, List.mem_cons]
        tauto

/-- Invariant of the whole gathering pre-pass across queries: the collected
entries have pairwise distinct links, none was in the initial seen set, and
the final seen set is the initial one plus the collected links. -/
theorem gatherQueries_spec (feeds : String → Option (List RSSEntry)) (cap : Nat)
    (qs : List String) :
    ∀ seen : List String,
      ((gatherQueries feeds cap qs seen).2.map RSSEntry.link).Nodup ∧
      (∀ l ∈ (gatherQueries feeds cap qs seen).2.map RSSEntry.link, l ∉ seen) ∧
      (∀ l, l ∈ (gatherQueries feeds cap qs seen).1 ↔
        l ∈ seen ∨ l ∈ (gatherQueries feeds cap qs seen).2.map RSSEntry.link) := by
  induction qs with
  | nil =>
    intro seen
    simp [gatherQueries]
  | cons q qs ih =>
    intro seen
    cases hf : feeds q with
    | none =>
      simp only [gatherQueries, hf]
      exact ih seen
    | some es =>
      simp only [gatherQueries, hf]
      obtain ⟨q1, q2, q3⟩ := gatherQuery_spec (es.take cap) seen
      obtain ⟨r1, r2, r3⟩ := ih (gatherQuery (es.take cap) seen).1
      refine ⟨?_, ?_, ?_⟩
      · rw [List.map_append, List.nodup_append]
        exact ⟨q1, r1, fun a ha hb => r2 a hb ((q3 a).mpr (Or.inr ha))⟩
      · intro l hl
        rw [List.map_append, List.mem_append] at hl
        rcases hl with hl | hl
        · exact q2 l hl
        · exact fun hls => r2 l hl ((q3 l).mpr (Or.inl hls))
      · intro l
        rw [r3 l, q3 l, List.map_append, List.mem_append]
        tauto

/-- C6: the single-threaded gathering pre-pass of fetch_articles
deduplicates all candidate entries across all queries by link before any
entry reaches the worker pool — its output has pairwise distinct links — and
fetch_articles is exactly the per-item processing mapped over that
already-deduplicated list, so no two workers are ever handed the same
link. -/
theorem claimC6_dedup_before_fanout (queries : List String)
    (feeds : String → Option (List RSSEntry)) (cap : Nat)
    (proc : RSSEntry → Option Article) :
    ((gatherEntries queries feeds cap).map RSSEntry.link).Nodup ∧
    fetch_articles queries feeds cap proc =
      (gatherEntries queries feeds cap).filterMap proc :=
  ⟨(gatherQueries_spec feeds cap queries []).1, rfl⟩

/-- Retry bound: one protected admission invokes the underlying operation at
most fuel + 1 times. -/
theorem runRetryAux_calls_le (f : Nat → Bool × ℚ) (cfg : RetryConfig) :
    ∀ fuel attempt, (runRetryAux f cfg attempt fuel).calls ≤ fuel + 1 := by
  intro fuel
  induction fuel with
  | zero =>
    intro attempt
    by_cases hs : (f attempt).1 <;> simp [runRetryAux, hs]
  | succ n ihn =>
    intro attempt
    by_cases hs : (f attempt).1
    · simp [runRetryAux, hs]
    · simp only [runRetryAux, hs, Bool.false_eq_true, if_false]
      have := ihn (attempt + 1)
      omega

/-- Timeout wrapping preserves the invocation count. -/
theorem runTimeout_calls (limit : ℚ) (r : CallResult) : (runTimeout limit r).calls = r.calls := by
  unfold runTimeout
  split <;> rfl

/-- C8: the decorator stack of _fetch_ticker_data composes the policies as
timeout outermost, then circuit breaker, then retry, then the underlying
call: (1) an open breaker inside its recovery window short-circuits with
CircuitOpen, zero invocations of the underlying operation and zero elapsed
time — the breaker check runs inside the deadline and no retry happens
around it; (2) a single protected call invokes the underlying operation at
most max_retries + 1 = 3 times — retries happen inside one breaker
admission; (3) whenever the breaker admits the call and the retried
computation exceeds the 30-second deadline, the overall outcome is Timeout —
the deadline bounds breaker-admitted work including all retries. -/
theorem claimC8_policy_order (f : Nat → Bool × ℚ) (nowT : ℚ) (st : BreakerState) :
    (∀ t, st = BreakerState.openSt t → nowT - t < fetchBreakerConfig.recovery_timeout →
      (fetchTickerProtected f nowT st).1 =
        { outcome := CallOutcome.circuitOpenErr, calls := 0, elapsed := 0 }) ∧
    (fetchTickerProtected f nowT st).1.calls ≤ fetchRetryConfig.max_retries + 1 ∧
    ((∀ t, st = BreakerState.openSt t → fetchBreakerConfig.recovery_timeout ≤ nowT - t) →
      (runRetry f fetchRetryConfig).elapsed > 30 →
      (fetchTickerProtected f nowT st).1.outcome = CallOutcome.timeoutErr) := by
  refine ⟨?_, ?_, ?_⟩
  · intro t hst hwin
    subst hst
    simp only [fetchTickerProtected, runBreaker, if_pos hwin]
    unfold runTimeout
    norm_num
  · have hb := runRetryAux_calls_le f fetchRetryConfig fetchRetryConfig.max_retries 0
    cases st with
    | closedSt n =>
      simp only [fetchTickerProtected, runBreaker, runTimeout_calls]
      exact hb
    | openSt t =>
      simp only [fetchTickerProtected, runBreaker, runTimeout_calls]
      split
      · simp
      · exact hb
    | halfOpenSt =>
      simp only [fetchTickerProtected, runBreaker, runTimeout_calls]
      exact hb
  · intro hadm helapsed
    cases st with
    | closedSt n =>
      simp only [fetchTickerProtected, runBreaker]
      unfold runTimeout
      rw [if_pos helapsed]
    | openSt t =>
      have hge := hadm t rfl
      simp only [fetchTickerProtected, runBreaker, if_neg (not_lt.mpr hge)]
      unfold runTimeout
      rw [if_pos helapsed]
    | halfOpenSt =>
      simp only [fetchTickerProtected, runBreaker]
      unfold runTimeout
      rw [if_pos helapsed]

/-- C8 witness: with an underlying operation that always fails after 20
seconds and a closed breaker, the three retried attempts plus backoff exceed
the 30-second deadline and the protected call surfaces Timeout. -/
theorem claimC8_witness :
    (fetchTickerProtected (fun _ => (false, 20)) 0 (BreakerState.closedSt 0)).1.outcome =
      CallOutcome.timeoutErr := by
  apply (claimC8_policy_order (fun _ => (false, 20)) 0 (BreakerState.closedSt 0)).2.2
  · intro t h
    simp at h
  · norm_num [runRetry, runRetryAux, backoffDelay, fetchRetryConfig]

/-- Digit characters parse back to the digit they render. -/
theorem parseDigit_digitChar (n : Nat) (h : n < 10) : parseDigit (digitChar n) = some n := by
  interval_cases n <;> rfl

/-- Two-digit zero-padded fields parse back to their value. -/
theorem parse2_pad2 (n : Nat) (h : n < 100) :
    parse2 (digitChar (n / 10)) (digitChar (n % 10)) = some n := by
  have h1 : n / 10 < 10 := by omega
  have h2 : n % 10 < 10 := by omega
  simp [parse2, parseDigit_digitChar _ h1, parseDigit_digitChar _ h2]
  omega

/-- Roundtrip of the timestamp serialization: parsing the isoformat output
of a valid datetime restores the datetime exactly, in both the
zero-microsecond and the fractional-second format. -/
theorem fromiso_isoformat (d : Datetime) (h : d.valid = true) :
    Datetime.fromisoformat d.isoformat = some d := by
  obtain ⟨y, mo, da, ho, mi, se, mic⟩ := d
  simp only [Datetime.valid, Bool.and_eq_true, decide_eq_true_eq] at h
  obtain ⟨⟨⟨⟨⟨⟨⟨⟨⟨hy1, hy2⟩, hm1⟩, hm2⟩, hd1⟩, hd2⟩, hh⟩, hmi⟩, hs⟩, hmic⟩ := h
  have py1 : parse2 (digitChar (y / 100 / 10)) (digitChar (y / 100 % 10)) = some (y / 100) :=
    parse2_pad2 _ (by omega)
  have py2 : parse2 (digitChar (y % 100 / 10)) (digitChar (y % 100 % 10)) = some (y % 100) :=
    parse2_pad2 _ (by omega)
  have pmo : parse2 (digitChar (mo / 10)) (digitChar (mo % 10)) = some mo :=
    parse2_pad2 _ (by omega)
  have pda : parse2 (digitChar (da / 10)) (digitChar (da % 10)) = some da :=
    parse2_pad2 _ (by omega)
  have pho : parse2 (digitChar (ho / 10)) (digitChar (ho % 10)) = some ho :=
    parse2_pad2 _ (by omega)
  have pmi : parse2 (digitChar (mi / 10)) (digitChar (mi % 10)) = some mi :=
    parse2_pad2 _ (by omega)
  have pse : parse2 (digitChar (se / 10)) (digitChar (se % 10)) = some se :=
    parse2_pad2 _ (by omega)
  unfold Datetime.fromisoformat Datetime.isoformat Datetime.isoformatChars
  by_cases hm0 : mic = 0
  · subst hm0
    simp only [if_pos rfl, pad4, pad2, List.cons_append, List.nil_append, List.append_nil,
      List.append_assoc]
    simp +decide only [Datetime.fromisoChars, py1, py2, pmo, pda, pho, pmi, pse, parseMicro,
      Option.bind_eq_bind, Option.some_bind, if_true, Option.pure_def]
    have hc : 1 ≤ 100 * (y / 100) + y % 100 ∧ 1 ≤ mo ∧ mo ≤ 12 ∧ 1 ≤ da ∧ da ≤ 31 ∧
        ho ≤ 23 ∧ mi ≤ 59 ∧ se ≤ 59 := by omega
    rw [if_pos hc]
    simp only [Option.some.injEq, Datetime.mk.injEq, and_true, true_and]
    omega
  · have pm1 : parse2 (digitChar (mic / 10000 / 10)) (digitChar (mic / 10000 % 10)) =
        some (mic / 10000) := parse2_pad2 _ (by omega)
    have pm2 : parse2 (digitChar (mic / 100 % 100 / 10)) (digitChar (mic / 100 % 100 % 10)) =
        some (mic / 100 % 100) := parse2_pad2 _ (by omega)
    have pm3 : parse2 (digitChar (mic % 100 / 10)) (digitChar (mic % 100 % 10)) =
        some (mic % 100) := parse2_pad2 _ (by omega)
    simp only [if_neg hm0, pad4, pad6, pad2, List.cons_append, List.nil_append,
      List.append_nil, List.append_assoc]
    simp +decide only [Datetime.fromisoChars, py1, py2, pmo, pda, pho, pmi, pse, parseMicro,
      pm1, pm2, pm3, Option.bind_eq_bind, Option.some_bind, if_true, Option.pure_def]
    have hc : 1 ≤ 100 * (y / 100) + y % 100 ∧ 1 ≤ mo ∧ mo ≤ 12 ∧ 1 ≤ da ∧ da ≤ 31 ∧
        ho ≤ 23 ∧ mi ≤ 59 ∧ se ≤ 59 := by omega
    rw [if_pos hc]
    simp only [Option.some.injEq, Datetime.mk.injEq, and_true, true_and]
    omega

/-- Article-level serialization is the identity on the record content. -/
theorem analyzed_article_roundtrip (arts : List AnalyzedArticle) :
    (arts.map AnalyzedArticle.to_dict).map AnalyzedArticle.from_dict = arts := by
  rw [List.map_map]
  have hid : AnalyzedArticle.from_dict ∘ AnalyzedArticle.to_dict = id := funext fun a => rfl
  rw [hid, List.map_id]

/-- C10: for every report that passes validation (with its timestamp in the
datetime range), reconstructing a report from its own dictionary
serialization restores every field — timestamp, query, category, counts,
distribution, net score, signal, processing time and the full article list
with both sentiment records per article. -/
theorem claimC10_roundtrip (r : AnalysisReport) (hv : r.validate = true)
    (ht : r.timestamp.valid = true) :
    AnalysisReport.from_dict r.to_dict = some r := by
  obtain ⟨ts, q, c, ta, sd, ns, ms, arts, pt⟩ := r
  simp only [AnalysisReport.validate, Bool.and_eq_true, Bool.or_eq_true, decide_eq_true_eq,
    beq_iff_eq] at hv
  obtain ⟨⟨⟨⟨⟨⟨⟨h0, h1⟩, h2⟩, hsig⟩, hpt⟩, hkeys⟩, hlen⟩, hall⟩ := hv
  have hsdne : sd.isEmpty = false := by
    rcases sd with _ | ⟨p, rest⟩
    · simp [sameKeySet, keysOf] at hkeys
    · rfl
  have hmsne : (ms == "") = false := by
    rcases hsig with (hms | hms) | hms <;> rw [hms] <;> rfl
  simp only [AnalysisReport.to_dict, AnalysisReport.from_dict, fromiso_isoformat ts ht,
    analyzed_article_roundtrip, hsdne, hmsne, Bool.false_eq_true, if_false]

/-- Validation of the concrete sample report. -/
theorem sampleReport_validate : sampleReport.validate = true := by
  unfold sampleReport AnalysisReport.validate
  simp +decide only [Bool.and_eq_true, Bool.or_eq_true, decide_eq_true_eq, beq_iff_eq,
    List.all_cons, List.all_nil, Bool.and_true]
  refine ⟨⟨by norm_num, by norm_num⟩, mkScored_validate "Positive" (9/10) (by norm_num)
    (by norm_num) (Or.inl rfl)⟩

/-- C10 witness: the roundtrip at the concrete valid report. -/
theorem claimC10_witness :
    AnalysisReport.from_dict (AnalysisReport.to_dict sampleReport) = some sampleReport :=
  claimC10_roundtrip sampleReport sampleReport_validate (by decide)

end NewsSentiment
